import Mathlib

/-!
Verification of the SysMon sampling-and-snapshot pipeline (`src/main.py`).

The Python source is shallowly embedded: pure helper functions become Lean
functions over `ℚ`, `ℤ`, `ℕ`, `String` and `List Char`; Python exceptions
become `Except`/`Option`; Python's stable `list.sort(key=..., reverse=True)`
is embedded as `List.insertionSort` with the relation "my key is ≥ yours"
(insertion sort is stable, so it computes exactly the stable descending
order that CPython's Timsort produces).

Numeric values that Python holds in `float` are modelled as exact rationals;
`f"{x:.1f}"` formatting is modelled as rounding to one decimal with
round-half-to-even (CPython's formatting rounds the binary double to the
nearest one-decimal string, ties to even).
-/

namespace SysMon

/-- Round-half-to-even of a rational to an integer, modelling the rounding
used by CPython float formatting. -/
def rhe (q : ℚ) : ℤ :=
  let f := ⌊q⌋
  let r := q - (f : ℚ)
  if r < 1 / 2 then f
  else if 1 / 2 < r then f + 1
  else if f % 2 = 0 then f else f + 1

/-- The rational obtained by rounding `q` to one decimal place, i.e. the
value that `float(f"\x7bq:.1f\x7d")` parses back in the Python source. -/
def roundTenths (q : ℚ) : ℚ := (rhe (10 * q) : ℚ) / 10

/-- One-decimal formatting `f"\x7bq:.1f\x7d"` for the nonnegative values the
program formats (byte counts and percentages). -/
def fmt1 (q : ℚ) : String :=
  let t := rhe (10 * q)
  toString (t / 10) ++ "." ++ toString (t % 10)

/-- Embedding of `bytes2human`'s loop over the unit list
`["B", "K", "M", "G", "T"]` (src/main.py lines 45-50): return as soon as the
scaled value drops below 1024, otherwise divide by 1024 and move to the next
unit, falling through to `"P"` after the list is exhausted. -/
def bytes2humanAux : ℚ → List String → String
  | n, [] => fmt1 n ++ "P"
  | n, u :: us => if n < 1024 then fmt1 n ++ u else bytes2humanAux (n / 1024) us

/-- Embedding of `bytes2human` (src/main.py lines 45-50). -/
def bytes2human (n : ℚ) : String :=
  bytes2humanAux n ["B", "K", "M", "G", "T"]

/-- Unit suffix chosen after `k` divisions by 1024. -/
def unitName : ℕ → String
  | 0 => "B"
  | 1 => "K"
  | 2 => "M"
  | 3 => "G"
  | 4 => "T"
  | _ => "P"

/-- A theme palette, embedding one entry of the `THEMES` dict
(src/main.py lines 18-41). -/
structure Palette where
  bg : String
  panel : String
  fg : String
  accent : String
  warn : String
  crit : String
  disk : String
  swap : String
  status : String
deriving DecidableEq

/-- The `"dark"` entry of `THEMES`. -/
def darkTheme : Palette :=
  { bg := "#121212", panel := "#1e1e1e", fg := "#e0e0e0", accent := "#4caf50"
    warn := "#ff9800", crit := "#f44336", disk := "#03a9f4", swap := "#9c27b0"
    status := "#888888" }

/-- The `"light"` entry of `THEMES`. -/
def lightTheme : Palette :=
  { bg := "#f5f5f5", panel := "#e0e0e0", fg := "#202020", accent := "#388e3c"
    warn := "#f57c00", crit := "#d32f2f", disk := "#0288d1", swap := "#7b1fa2"
    status := "#555555" }

/-- Embedding of `color_for_load` (src/main.py lines 52-55). -/
def color_for_load (pct : ℚ) (colors : Palette) : String :=
  if pct < 50 then colors.accent
  else if pct < 75 then colors.warn
  else colors.crit

/-- Embedding of the command-string truncation in `_update_procs`
(src/main.py line 444): `if len(cmd) > 100: cmd = cmd[:97] + "..."`.
Python strings are embedded as lists of characters. -/
def truncateCmd (cmd : List Char) : List Char :=
  if 100 < cmd.length then cmd.take 97 ++ ['.', '.', '.'] else cmd

/-- Embedding of `_increase_interval` (src/main.py lines 247-249):
`self.update_interval = min(self.update_interval + 500, 10000)`. -/
def increase_interval (i : ℤ) : ℤ := min (i + 500) 10000

/-- Embedding of `_decrease_interval` (src/main.py lines 251-253):
`self.update_interval = max(self.update_interval - 500, 250)`. -/
def decrease_interval (i : ℤ) : ℤ := max (i - 500) 250

/-- One interval-adjustment request (Alt-plus / Alt-minus key binding). -/
inductive IntervalReq
  | inc
  | dec
deriving DecidableEq

/-- Apply one interval-adjustment request. -/
def applyReq (i : ℤ) : IntervalReq → ℤ
  | .inc => increase_interval i
  | .dec => decrease_interval i

/-- Apply a sequence of interval-adjustment requests in order. -/
def applyReqs (i : ℤ) (reqs : List IntervalReq) : ℤ :=
  reqs.foldl applyReq i

/-- Embedding of the disk percentage computed in `_update_mem_swap_disk`
(src/main.py line 431): `pct = (d.used/d.total)*100 if d.total else 0.0`. -/
def diskPct (used total : ℕ) : ℚ :=
  if total = 0 then 0 else ((used : ℚ) / (total : ℚ)) * 100

/-- The per-process attributes `p.info` that `_update_procs` reads for one
process (src/main.py line 440): pid, username, CPU%, memory%, memory info
(vms + rss), command line, name fallback, and creation time. -/
structure ProcInfo where
  pid : ℕ
  username : Option String
  cpu_percent : ℚ
  memory_percent : ℚ
  vms : ℕ
  rss : ℕ
  cmdline : List (List Char)
  name : List Char
  create_time : ℕ
deriving DecidableEq

/-- One row of the process table as built in `_update_procs`
(src/main.py lines 445-454). `cpu` and `mem` hold the one-decimal values
the code formats into the row (the sort key reparses them with `float`). -/
structure ProcRow where
  pid : ℕ
  user : String
  cpu : ℚ
  mem : ℚ
  virt : String
  res : String
  time : ℕ
  cmd : List Char
deriving DecidableEq

/-- Embedding of `" ".join(parts)`. -/
def joinSpace : List (List Char) → List Char
  | [] => []
  | [a] => a
  | a :: rest => a ++ ' ' :: joinSpace rest

/-- Build one table row from successfully read attributes
(src/main.py lines 443-454): `" ".join(i["cmdline"] or [p.name()])` with
truncation, `i["username"] or ""`, one-decimal CPU and memory percentages,
human-readable vms/rss. -/
def buildRow (p : ProcInfo) : ProcRow :=
  { pid := p.pid
    user := p.username.getD ""
    cpu := roundTenths p.cpu_percent
    mem := roundTenths p.memory_percent
    virt := bytes2human (p.vms : ℚ)
    res := bytes2human (p.rss : ℚ)
    time := p.create_time
    cmd := truncateCmd (joinSpace (if p.cmdline.isEmpty then [p.name] else p.cmdline)) }

/-- The enumeration seen by `_update_procs`: for each enumerated process,
`some` of its attributes if every read in the `try` block succeeded, or
`none` if the process vanished (`NoSuchProcess`) or denied access
(`AccessDenied`) between enumeration and read — those are caught by the
`except` clause and the process is skipped via `continue`
(src/main.py lines 440-456). -/
def procRows (procs : List (Option ProcInfo)) : List ProcRow :=
  procs.filterMap (fun o => o.map buildRow)

/-- The ordering used by `rows.sort(key=lambda r: float(r[2]), reverse=True)`
(src/main.py line 457): row `a` may precede row `b` when `a`'s parsed
one-decimal CPU value is at least `b`'s. -/
def rowBefore (a b : ProcRow) : Prop := b.cpu ≤ a.cpu

instance : DecidableRel rowBefore :=
  fun a b => inferInstanceAs (Decidable (b.cpu ≤ a.cpu))

instance : IsTotal ProcRow rowBefore := ⟨fun a b => le_total b.cpu a.cpu⟩

instance : IsTrans ProcRow rowBefore := ⟨fun _ _ _ h1 h2 => le_trans h2 h1⟩

/-- Embedding of the stable descending sort `rows.sort(...)`
(src/main.py line 457); insertion sort is stable, like CPython's sort. -/
def sortRows (rows : List ProcRow) : List ProcRow :=
  rows.insertionSort rowBefore

/-- Embedding of `_update_procs` (src/main.py lines 437-459): build a row
per surviving process, stable-sort descending by the one-decimal CPU value,
and keep the first 80 rows (`rows[:80]`). -/
def update_procs (procs : List (Option ProcInfo)) : List ProcRow :=
  (sortRows (procRows procs)).take 80

/-- What one call of `_update_all` (src/main.py lines 407-415) does, beyond
running the tick body: the errors it prints to stderr and whether it calls
`self.after` to schedule the next tick. -/
structure TickOutcome (E : Type) where
  logged : List E
  next_scheduled : Bool
deriving DecidableEq

/-- Embedding of `_update_all` (src/main.py lines 407-415): the tick body
(CPU, memory/swap/disk, processes, top info) either succeeds or raises; any
exception is caught, printed to stderr, and `self.after(...)` is reached in
both cases. -/
def update_all {E : Type} (body : Except E Unit) : TickOutcome E :=
  match body with
  | Except.ok _ => { logged := [], next_scheduled := true }
  | Except.error e => { logged := [e], next_scheduled := true }

/-- Running the monitoring loop over a sequence of tick bodies: since every
tick reschedules, every body is executed. -/
def run_loop {E : Type} (bodies : List (Except E Unit)) : List (TickOutcome E) :=
  bodies.map update_all

/-- Errors `load_settings` can propagate out of `ConfigParser`:
a parsing error from `cfg.read` or a value error from `getint`. -/
inductive LoadErr
  | parseError
  | valueError
deriving DecidableEq

/-- A parsed INI file: sections mapping option names to raw string values. -/
structure IniFile where
  sections : List (String × List (String × String))
deriving DecidableEq

/-- Option lookup in a parsed INI file. -/
def iniGet (f : IniFile) (sec key : String) : Option String :=
  match f.sections.lookup sec with
  | none => none
  | some kvs => kvs.lookup key

/-- Embedding of `ConfigParser.getint(sec, key, fallback=fb)`: the fallback
is returned only when the section or option is missing; a present value
that does not parse as an integer raises `ValueError`. -/
def cfg_getint (f : IniFile) (sec key : String) (fb : ℤ) : Except LoadErr ℤ :=
  match iniGet f sec key with
  | none => Except.ok fb
  | some v =>
    match v.toInt? with
    | some n => Except.ok n
    | none => Except.error LoadErr.valueError

/-- Embedding of `ConfigParser.get(sec, key, fallback=fb)`. -/
def cfg_get (f : IniFile) (sec key : String) (fb : String) : String :=
  (iniGet f sec key).getD fb

/-- The state of the persisted configuration file when `load_settings`
runs: absent, present but unparseable, or parsed content. -/
inductive StoredConfig
  | missing
  | corrupt
  | parsed (f : IniFile)

/-- Embedding of `cfg.read(cfg_path())`: `ConfigParser.read` silently
ignores files that cannot be opened (missing file gives an empty parser),
but propagates parsing errors (`MissingSectionHeaderError`/`ParsingError`)
raised on unparseable content. -/
def cfg_read : StoredConfig → Except LoadErr IniFile
  | StoredConfig.missing => Except.ok ⟨[]⟩
  | StoredConfig.corrupt => Except.error LoadErr.parseError
  | StoredConfig.parsed f => Except.ok f

/-- Embedding of `load_settings` (src/main.py lines 122-128): read the
file, then the three options in order; any raised error propagates. -/
def load_settings (st : StoredConfig) : Except LoadErr (ℤ × ℤ × String) :=
  match cfg_read st with
  | Except.error e => Except.error e
  | Except.ok cfg =>
    match cfg_getint cfg "ui" "font_size" 10 with
    | Except.error e => Except.error e
    | Except.ok fs =>
      match cfg_getint cfg "ui" "update_interval_ms" 1000 with
      | Except.error e => Except.error e
      | Except.ok interval =>
        Except.ok (fs, interval, cfg_get cfg "ui" "theme_mode" "auto")

/-- A sample process whose raw CPU reading 1.21 rounds to 1.2. -/
def procA : ProcInfo :=
  ⟨1, some "root", 121 / 100, 1, 0, 0, [['a']], ['x'], 0⟩

/-- A sample process whose raw CPU reading 1.24 also rounds to 1.2. -/
def procB : ProcInfo :=
  ⟨2, none, 124 / 100, 2, 0, 0, [], ['y'], 5⟩

/-- Evaluation rule for `rhe` when the fractional part is below one half. -/
lemma rhe_eq_floor (q : ℚ) (h2 : q - ⌊q⌋ < 1 / 2) : rhe q = ⌊q⌋ := by
  simp only [rhe]
  rw [if_pos h2]

/-- Evaluation rule for `roundTenths` when the scaled fractional part is
below one half. -/
lemma roundTenths_eval (q : ℚ) (t : ℤ) (hf : ⌊10 * q⌋ = t)
    (h2 : 10 * q - (t : ℚ) < 1 / 2) : roundTenths q = (t : ℚ) / 10 := by
  rw [roundTenths, rhe_eq_floor _ (by rw [hf]; exact_mod_cast h2), hf]

/-- The two sample processes carry distinct raw CPU readings that round to
the same one-decimal value, so their rows tie under the sort key. -/
lemma roundTenths_tie :
    roundTenths procA.cpu_percent = roundTenths procB.cpu_percent := by
  show roundTenths (121 / 100) = roundTenths (124 / 100)
  rw [roundTenths_eval (121 / 100) 12 (by norm_num) (by norm_num),
      roundTenths_eval (124 / 100) 12 (by norm_num) (by norm_num)]

/-- Under the sort relation, `procA`'s row may precede `procB`'s row. -/
lemma rowBefore_AB : rowBefore (buildRow procA) (buildRow procB) :=
  le_of_eq roundTenths_tie.symm

/-- Under the sort relation, `procB`'s row may precede `procA`'s row. -/
lemma rowBefore_BA : rowBefore (buildRow procB) (buildRow procA) :=
  le_of_eq roundTenths_tie

/-- Evaluation of the snapshot on the two tied sample processes: the tie is
kept in enumeration order. -/
lemma update_procs_AB_eval :
    update_procs [some procA, some procB] = [buildRow procA, buildRow procB] := by
  simp [update_procs, sortRows, procRows, List.insertionSort,
    List.orderedInsert, rowBefore_AB]

/-- Evaluation of the snapshot when a process vanishes mid-enumeration:
the `none` entry is skipped, the rest is unchanged. -/
lemma update_procs_skip_eval :
    update_procs [some procA, none, some procB] =
      [buildRow procA, buildRow procB] := by
  simp [update_procs, sortRows, procRows, List.insertionSort,
    List.orderedInsert, rowBefore_AB]

/-- The row list has one entry per successfully read process. -/
lemma procRows_length (procs : List (Option ProcInfo)) :
    (procRows procs).length = procs.countP (fun o => o.isSome) := by
  induction procs with
  | nil => rfl
  | cons o rest ih =>
    cases o <;> simp [procRows, List.countP_cons, ih] <;>
      simpa [procRows] using ih

/-- Successful and failed reads partition the enumeration. -/
lemma countP_isSome_add_isNone (procs : List (Option ProcInfo)) :
    procs.countP (fun o => o.isSome) + procs.countP (fun o => o.isNone) =
      procs.length := by
  induction procs with
  | nil => rfl
  | cons o rest ih =>
    cases o <;> simp [List.countP_cons] <;> omega

/-- The snapshot's length is the row count capped at 80. -/
lemma update_procs_length (procs : List (Option ProcInfo)) :
    (update_procs procs).length = min 80 (procRows procs).length := by
  simp [update_procs, sortRows]

/-- C4: a command string longer than 100 characters becomes its first 97
characters followed by the 3-character ellipsis marker, exactly 100
characters long; a command string of at most 100 characters is unchanged. -/
theorem truncateCmd_spec (cmd : List Char) :
    (100 < cmd.length →
      truncateCmd cmd = cmd.take 97 ++ ['.', '.', '.'] ∧
      (truncateCmd cmd).length = 100) ∧
    (cmd.length ≤ 100 → truncateCmd cmd = cmd) := by
  constructor
  · intro h
    refine ⟨if_pos h, ?_⟩
    rw [truncateCmd, if_pos h]
    simp [List.length_take]
    omega
  · intro h
    rw [truncateCmd, if_neg (by omega)]

/-- Witness for C4 on a 150-character command: it is truncated to exactly
100 characters ending in the ellipsis marker. -/
theorem truncateCmd_spec_witness :
    truncateCmd (List.replicate 150 'a') =
      (List.replicate 150 'a').take 97 ++ ['.', '.', '.'] ∧
    (truncateCmd (List.replicate 150 'a')).length = 100 :=
  (truncateCmd_spec (List.replicate 150 'a')).1
    (by rw [List.length_replicate]; omega)

/-- C5: an increase request sets the interval to `min (i + 500) 10000` and a
decrease request to `max (i - 500) 250`; starting from any interval in
[250, 10000], every sequence of increase/decrease requests keeps the
interval within [250, 10000]. -/
theorem interval_clamp_spec :
    (∀ i : ℤ, 250 ≤ i → i ≤ 10000 →
      increase_interval i = min (i + 500) 10000 ∧
      decrease_interval i = max (i - 500) 250) ∧
    ∀ (reqs : List IntervalReq) (i : ℤ), 250 ≤ i → i ≤ 10000 →
      250 ≤ applyReqs i reqs ∧ applyReqs i reqs ≤ 10000 := by
  refine ⟨fun i _ _ => ⟨rfl, rfl⟩, ?_⟩
  intro reqs
  induction reqs with
  | nil => exact fun i h1 h2 => ⟨h1, h2⟩
  | cons r rs ih =>
    intro i h1 h2
    have hstep : 250 ≤ applyReq i r ∧ applyReq i r ≤ 10000 := by
      cases r <;>
        simp only [applyReq, increase_interval, decrease_interval] <;>
        omega
    simpa [applyReqs] using ih (applyReq i r) hstep.1 hstep.2

/-- Witness for C5: from 1500 ms, twenty consecutive increase requests stay
within the bounds (in particular the interval never exceeds 10000 ms). -/
theorem interval_clamp_spec_witness :
    250 ≤ applyReqs 1500 (List.replicate 20 IntervalReq.inc) ∧
    applyReqs 1500 (List.replicate 20 IntervalReq.inc) ≤ 10000 :=
  interval_clamp_spec.2 (List.replicate 20 IntervalReq.inc) 1500
    (by decide) (by decide)

/-- C6: the disk percentage is `used/total*100` when `total ≠ 0` and `0`
when `total = 0` (the division is guarded); whenever `used ≤ total` the
percentage lies in [0, 100]. -/
theorem diskPct_spec (used total : ℕ) :
    (total = 0 → diskPct used total = 0) ∧
    (total ≠ 0 → diskPct used total = ((used : ℚ) / (total : ℚ)) * 100) ∧
    (used ≤ total → 0 ≤ diskPct used total ∧ diskPct used total ≤ 100) := by
  refine ⟨fun h => by rw [diskPct, if_pos h],
          fun h => by rw [diskPct, if_neg h],
          fun h => ?_⟩
  by_cases h0 : total = 0
  · rw [diskPct, if_pos h0]
    norm_num
  · rw [diskPct, if_neg h0]
    have ht : (0 : ℚ) < (total : ℚ) := by
      exact_mod_cast Nat.pos_of_ne_zero h0
    have hle : (used : ℚ) ≤ (total : ℚ) := by exact_mod_cast h
    constructor
    · have : 0 ≤ (used : ℚ) / (total : ℚ) :=
        div_nonneg (by positivity) ht.le
      linarith
    · have hd : (used : ℚ) / (total : ℚ) ≤ 1 := (div_le_one ht).mpr hle
      linarith

/-- Witness for C6 at `used = 1`, `total = 2`. -/
theorem diskPct_spec_witness :
    0 ≤ diskPct 1 2 ∧ diskPct 1 2 ≤ 100 :=
  (diskPct_spec 1 2).2.2 (by decide)

/-- C7: with a palette whose three tones are distinct (as in both shipped
themes), `color_for_load` returns the normal tone iff `pct < 50`, the
warning tone iff `50 ≤ pct < 75`, and the critical tone iff `75 ≤ pct`; in
particular `pct = 50` yields warning and `pct = 75` yields critical. -/
theorem color_for_load_spec (pct : ℚ) (c : Palette)
    (haw : c.accent ≠ c.warn) (hac : c.accent ≠ c.crit) (hwc : c.warn ≠ c.crit) :
    (color_for_load pct c = c.accent ↔ pct < 50) ∧
    (color_for_load pct c = c.warn ↔ 50 ≤ pct ∧ pct < 75) ∧
    (color_for_load pct c = c.crit ↔ 75 ≤ pct) ∧
    (pct = 50 → color_for_load pct c = c.warn) ∧
    (pct = 75 → color_for_load pct c = c.crit) := by
  unfold color_for_load
  rcases lt_or_le pct 50 with h1 | h1
  · rw [if_pos h1]
    exact ⟨iff_of_true rfl h1,
           iff_of_false haw (fun hh => absurd h1 (not_lt.mpr hh.1)),
           iff_of_false hac
             (fun hh => absurd h1 (not_lt.mpr (le_trans (by norm_num) hh))),
           fun he => absurd (he ▸ h1) (by norm_num),
           fun he => absurd (he ▸ h1) (by norm_num)⟩
  · rcases lt_or_le pct 75 with h2 | h2
    · rw [if_neg (not_lt.mpr h1), if_pos h2]
      exact ⟨iff_of_false (Ne.symm haw) (fun hh => absurd h1 (not_le.mpr hh)),
             iff_of_true rfl ⟨h1, h2⟩,
             iff_of_false hwc (fun hh => absurd h2 (not_lt.mpr hh)),
             fun _ => rfl,
             fun he => absurd (he ▸ h2) (lt_irrefl _)⟩
    · rw [if_neg (not_lt.mpr h1), if_neg (not_lt.mpr h2)]
      refine ⟨iff_of_false (Ne.symm hac)
                (fun hh => absurd h2 (not_le.mpr (lt_of_lt_of_le hh (by norm_num)))),
              iff_of_false (Ne.symm hwc) (fun hh => absurd h2 (not_le.mpr hh.2)),
              iff_of_true rfl h2,
              fun he => ?_, fun _ => rfl⟩
      rw [he] at h2
      norm_num at h2

/-- Witness for C7 at `pct = 50` on the dark theme: exactly the warning
tone is returned. -/
theorem color_for_load_spec_witness :
    color_for_load 50 darkTheme = darkTheme.warn :=
  (color_for_load_spec 50 darkTheme (by decide) (by decide) (by decide)).2.2.2.1 rfl

/-- C3: one tick of `_update_all` always schedules the next tick, whether
or not the tick body raised; a raised error is reported to the log; hence
the loop executes every tick body, none terminates it. -/
theorem update_all_spec {E : Type} (body : Except E Unit) :
    (update_all body).next_scheduled = true ∧
    (∀ e : E, body = Except.error e → e ∈ (update_all body).logged) ∧
    ∀ bodies : List (Except E Unit),
      (run_loop bodies).length = bodies.length ∧
      ∀ t ∈ run_loop bodies, t.next_scheduled = true := by
  refine ⟨?_, ?_, ?_⟩
  · cases body <;> rfl
  · intro e he
    cases body with
    | ok _ => exact absurd he (by simp)
    | error e' =>
      injection he with h
      subst h
      simp [update_all]
  · intro bodies
    refine ⟨List.length_map _ _, ?_⟩
    intro t ht
    obtain ⟨b, _, rfl⟩ := List.mem_map.mp ht
    cases b <;> rfl

/-- Witness for C3: a failing tick body still schedules the next tick and
its error appears in the log. -/
theorem update_all_spec_witness :
    (update_all (Except.error "boom" : Except String Unit)).next_scheduled = true ∧
    "boom" ∈ (update_all (Except.error "boom" : Except String Unit)).logged :=
  ⟨(update_all_spec (Except.error "boom")).1,
   (update_all_spec (Except.error "boom")).2.1 "boom" rfl⟩

/-- C9 counterexample: a corrupt (unparseable) configuration file does not
yield the defaults — `ConfigParser.read` propagates the parsing error, so
`load_settings` fails instead of returning `(10, 1000, "auto")`. -/
theorem load_settings_corrupt_raises :
    load_settings StoredConfig.corrupt = Except.error LoadErr.parseError ∧
    load_settings StoredConfig.corrupt ≠ Except.ok (10, 1000, "auto") :=
  ⟨rfl, fun h => Except.noConfusion h⟩

/-- C9 amended: a missing configuration file yields the documented defaults
`(10, 1000, "auto")`, as does a parsed file with all three keys absent; in
any successful load, each absent key contributes its default. A corrupt
file, by contrast, propagates a parse error. -/
theorem load_settings_defaults_spec :
    load_settings StoredConfig.missing = Except.ok (10, 1000, "auto") ∧
    (∀ f : IniFile, iniGet f "ui" "font_size" = none →
      iniGet f "ui" "update_interval_ms" = none →
      iniGet f "ui" "theme_mode" = none →
      load_settings (StoredConfig.parsed f) = Except.ok (10, 1000, "auto")) ∧
    (∀ (f : IniFile) (r : ℤ × ℤ × String),
      load_settings (StoredConfig.parsed f) = Except.ok r →
      (iniGet f "ui" "font_size" = none → r.1 = 10) ∧
      (iniGet f "ui" "update_interval_ms" = none → r.2.1 = 1000) ∧
      (iniGet f "ui" "theme_mode" = none → r.2.2 = "auto")) := by
  refine ⟨rfl, ?_, ?_⟩
  · intro f h1 h2 h3
    simp [load_settings, cfg_read, cfg_getint, cfg_get, h1, h2, h3]
  · intro f r h
    simp only [load_settings, cfg_read] at h
    rcases hfs : cfg_getint f "ui" "font_size" 10 with efs | nfs <;>
      simp only [hfs] at h
    · exact absurd h (by simp)
    rcases hiv : cfg_getint f "ui" "update_interval_ms" 1000 with eiv | niv <;>
      simp only [hiv] at h
    · exact absurd h (by simp)
    have hr : r = (nfs, niv, cfg_get f "ui" "theme_mode" "auto") := by
      simpa using h.symm
    subst hr
    refine ⟨fun habs => ?_, fun habs => ?_, fun habs => ?_⟩
    · have h10 : cfg_getint f "ui" "font_size" 10 = Except.ok 10 := by
        simp [cfg_getint, habs]
      rw [h10] at hfs
      injection hfs with h'
      exact h'.symm
    · have h1000 : cfg_getint f "ui" "update_interval_ms" 1000 = Except.ok 1000 := by
        simp [cfg_getint, habs]
      rw [h1000] at hiv
      injection hiv with h'
      exact h'.symm
    · simp [cfg_get, habs]

/-- Witness for C9 amended on an empty parsed file: all keys absent, all
defaults returned. -/
theorem load_settings_defaults_spec_witness :
    load_settings (StoredConfig.parsed ⟨[]⟩) = Except.ok (10, 1000, "auto") :=
  load_settings_defaults_spec.2.1 ⟨[]⟩ rfl rfl rfl

/-- C1: the process snapshot returns at most 80 rows, the rows are
non-increasing in the row's `cpu` value, the output is the 80-row prefix of
the stable-sorted row list, and any two enumerated rows with equal `cpu`
keep their enumeration order in the sorted list. -/
theorem update_procs_bounded_sorted (procs : List (Option ProcInfo)) :
    (update_procs procs).length ≤ 80 ∧
    (update_procs procs).Pairwise (fun a b => b.cpu ≤ a.cpu) ∧
    update_procs procs = (sortRows (procRows procs)).take 80 ∧
    ∀ a b : ProcRow, a.cpu = b.cpu → List.Sublist [a, b] (procRows procs) →
      List.Sublist [a, b] (sortRows (procRows procs)) := by
  refine ⟨List.length_take_le _ _, ?_, rfl, ?_⟩
  · exact List.Pairwise.sublist (List.take_sublist _ _)
      (List.sorted_insertionSort rowBefore (procRows procs))
  · intro a b hab hsub
    exact List.pair_sublist_insertionSort (le_of_eq hab.symm) hsub

/-- Witness for C1 on two tied sample rows, enumerated `procB` first: the
snapshot stays within 80 rows and the tie keeps its enumeration order. -/
theorem update_procs_bounded_sorted_witness :
    (update_procs [some procB, some procA]).length ≤ 80 ∧
    List.Sublist [buildRow procB, buildRow procA]
      (sortRows (procRows [some procB, some procA])) :=
  ⟨(update_procs_bounded_sorted [some procB, some procA]).1,
   (update_procs_bounded_sorted [some procB, some procA]).2.2.2
     (buildRow procB) (buildRow procA) roundTenths_tie.symm
     (List.Sublist.refl _)⟩

/-- C2: the snapshot is total (no exception escapes): every returned row
comes from a process whose attribute read succeeded, the pre-cap row count
equals the number of successful reads, and the snapshot shrinks by at most
the number of vanished/denied processes relative to a failure-free
enumeration of the same length. -/
theorem update_procs_skip_spec (procs : List (Option ProcInfo)) :
    (∀ r ∈ update_procs procs,
      ∃ p : ProcInfo, some p ∈ procs ∧ r = buildRow p) ∧
    (procRows procs).length = procs.countP (fun o => o.isSome) ∧
    min 80 procs.length - procs.countP (fun o => o.isNone) ≤
      (update_procs procs).length := by
  refine ⟨?_, procRows_length procs, ?_⟩
  · intro r hr
    have hr1 : r ∈ sortRows (procRows procs) := List.mem_of_mem_take hr
    have hr2 : r ∈ procRows procs :=
      (List.mem_insertionSort rowBefore).mp hr1
    obtain ⟨o, ho, hmap⟩ := List.mem_filterMap.mp hr2
    cases o with
    | none => simp at hmap
    | some p => exact ⟨p, ho, by simpa using hmap.symm⟩
  · have h1 := update_procs_length procs
    have h2 := procRows_length procs
    have h3 := countP_isSome_add_isNone procs
    omega

/-- Witness for C2 on an enumeration where the middle process vanishes:
the returned head row is traced back to a surviving process. -/
theorem update_procs_skip_spec_witness :
    ∃ p : ProcInfo, some p ∈ [some procA, none, some procB] ∧
      buildRow procA = buildRow p :=
  (update_procs_skip_spec [some procA, none, some procB]).1
    (buildRow procA)
    (by rw [update_procs_skip_eval]; exact List.mem_cons_self _ _)

/-- C10: the sort key of a row is the raw CPU reading rounded to one
decimal (formatted then reparsed); rows whose raw readings round equal are
ties kept in enumeration order; the output is non-increasing in the rounded
value; and on a concrete pair with raw readings 1.21 and 1.24 the output
order is increasing in the raw reading. -/
theorem update_procs_rounded_key_spec :
    (∀ p : ProcInfo, (buildRow p).cpu = roundTenths p.cpu_percent) ∧
    (∀ procs : List (Option ProcInfo),
      (update_procs procs).Pairwise (fun a b => b.cpu ≤ a.cpu)) ∧
    (∀ (procs : List (Option ProcInfo)) (p q : ProcInfo),
      roundTenths p.cpu_percent = roundTenths q.cpu_percent →
      List.Sublist [buildRow p, buildRow q] (procRows procs) →
      List.Sublist [buildRow p, buildRow q] (sortRows (procRows procs))) ∧
    procA.cpu_percent < procB.cpu_percent ∧
    roundTenths procA.cpu_percent = roundTenths procB.cpu_percent ∧
    update_procs [some procA, some procB] =
      [buildRow procA, buildRow procB] := by
  refine ⟨fun p => rfl, ?_, ?_, ?_, roundTenths_tie, update_procs_AB_eval⟩
  · intro procs
    exact List.Pairwise.sublist (List.take_sublist _ _)
      (List.sorted_insertionSort rowBefore (procRows procs))
  · intro procs p q hpq hsub
    exact List.pair_sublist_insertionSort (le_of_eq hpq.symm) hsub
  · norm_num [procA, procB]

/-- Witness for C10: the tied sample pair, enumerated `procA` first, stays
in enumeration order in the sorted row list. -/
theorem update_procs_rounded_key_spec_witness :
    List.Sublist [buildRow procA, buildRow procB]
      (sortRows (procRows [some procA, some procB])) :=
  update_procs_rounded_key_spec.2.2.1 [some procA, some procB] procA procB
    roundTenths_tie (List.Sublist.refl _)

/-- C8: `bytes2human 0 = "0.0B"` and `bytes2human 4000000000 = "3.7G"`;
in general, for every `n ≥ 0` the result is the value scaled by the first
power of 1024 that brings it below 1024, formatted to one decimal place
with the matching unit suffix, with `P` as the ceiling unit after five
divisions regardless of magnitude. -/
theorem bytes2human_spec :
    bytes2human 0 = "0.0B" ∧
    bytes2human 4000000000 = "3.7G" ∧
    ∀ n : ℚ, 0 ≤ n → ∃ k : ℕ, k ≤ 5 ∧
      bytes2human n = fmt1 (n / 1024 ^ k) ++ unitName k ∧
      (k < 5 → n / 1024 ^ k < 1024) ∧
      ∀ j : ℕ, j < k → 1024 ≤ n / 1024 ^ j := by
  refine ⟨?_, ?_, ?_⟩
  · have h1 : bytes2human (0 : ℚ) = fmt1 0 ++ "B" := by
      norm_num [bytes2human, bytes2humanAux]
    have h2 : rhe (10 * (0 : ℚ)) = 0 := by
      have hf : ⌊10 * (0 : ℚ)⌋ = 0 := by norm_num
      rw [rhe_eq_floor _ (by rw [hf]; norm_num), hf]
    rw [h1]
    simp only [fmt1]
    rw [h2]
    rfl
  · have h1 : bytes2human (4000000000 : ℚ) = fmt1 (1953125 / 524288) ++ "G" := by
      norm_num [bytes2human, bytes2humanAux]
    have h2 : rhe (10 * (1953125 / 524288 : ℚ)) = 37 := by
      have hf : ⌊10 * (1953125 / 524288 : ℚ)⌋ = 37 := by norm_num
      rw [rhe_eq_floor _ (by rw [hf]; norm_num), hf]
    rw [h1]
    simp only [fmt1]
    rw [h2]
    rfl
  · intro n _
    have key : ∀ j : ℕ, n / 1024 ^ (j + 1) = n / 1024 ^ j / 1024 := by
      intro j
      rw [pow_succ, ← div_div]
    have e0 : n / 1024 ^ 0 = n := by norm_num
    have e1 : n / 1024 ^ 1 = n / 1024 := by rw [pow_one]
    have e2 : n / 1024 ^ 2 = n / 1024 / 1024 := by rw [key 1, e1]
    have e3 : n / 1024 ^ 3 = n / 1024 / 1024 / 1024 := by rw [key 2, e2]
    have e4 : n / 1024 ^ 4 = n / 1024 / 1024 / 1024 / 1024 := by rw [key 3, e3]
    have e5 : n / 1024 ^ 5 = n / 1024 / 1024 / 1024 / 1024 / 1024 := by
      rw [key 4, e4]
    by_cases h0 : n < 1024
    · refine ⟨0, by norm_num, ?_, fun _ => by rw [e0]; exact h0,
        fun j hj => absurd hj (Nat.not_lt_zero j)⟩
      rw [e0]
      simp [bytes2human, bytes2humanAux, h0, unitName]
    · by_cases h1 : n / 1024 < 1024
      · refine ⟨1, by norm_num, ?_, fun _ => by rw [e1]; exact h1, ?_⟩
        · rw [e1]
          simp [bytes2human, bytes2humanAux, h0, h1, unitName]
        · intro j hj
          interval_cases j
          rw [e0]; exact not_lt.mp h0
      · by_cases h2 : n / 1024 / 1024 < 1024
        · refine ⟨2, by norm_num, ?_, fun _ => by rw [e2]; exact h2, ?_⟩
          · rw [e2]
            simp [bytes2human, bytes2humanAux, h0, h1, h2, unitName]
          · intro j hj
            interval_cases j
            · rw [e0]; exact not_lt.mp h0
            · rw [e1]; exact not_lt.mp h1
        · by_cases h3 : n / 1024 / 1024 / 1024 < 1024
          · refine ⟨3, by norm_num, ?_, fun _ => by rw [e3]; exact h3, ?_⟩
            · rw [e3]
              simp [bytes2human, bytes2humanAux, h0, h1, h2, h3, unitName]
            · intro j hj
              interval_cases j
              · rw [e0]; exact not_lt.mp h0
              · rw [e1]; exact not_lt.mp h1
              · rw [e2]; exact not_lt.mp h2
          · by_cases h4 : n / 1024 / 1024 / 1024 / 1024 < 1024
            · refine ⟨4, by norm_num, ?_, fun _ => by rw [e4]; exact h4, ?_⟩
              · rw [e4]
                simp [bytes2human, bytes2humanAux, h0, h1, h2, h3, h4, unitName]
              · intro j hj
                interval_cases j
                · rw [e0]; exact not_lt.mp h0
                · rw [e1]; exact not_lt.mp h1
                · rw [e2]; exact not_lt.mp h2
                · rw [e3]; exact not_lt.mp h3
            · refine ⟨5, le_refl 5, ?_, fun h => absurd h (by norm_num), ?_⟩
              · rw [e5]
                simp [bytes2human, bytes2humanAux, h0, h1, h2, h3, h4, unitName]
              · intro j hj
                interval_cases j
                · rw [e0]; exact not_lt.mp h0
                · rw [e1]; exact not_lt.mp h1
                · rw [e2]; exact not_lt.mp h2
                · rw [e3]; exact not_lt.mp h3
                · rw [e4]; exact not_lt.mp h4

/-- Witness for C8's general clause at `n = 4000000000`. -/
theorem bytes2human_spec_witness :
    ∃ k : ℕ, k ≤ 5 ∧
      bytes2human 4000000000 =
        fmt1 ((4000000000 : ℚ) / 1024 ^ k) ++ unitName k ∧
      (k < 5 → (4000000000 : ℚ) / 1024 ^ k < 1024) ∧
      ∀ j : ℕ, j < k → 1024 ≤ (4000000000 : ℚ) / 1024 ^ j :=
  bytes2human_spec.2.2 4000000000 (by norm_num)

end SysMon
